import Mathlib

/-!
Shallow embedding of `src/torchtext/data/iterator.py` (the batching, pooling,
epoch/iteration state machine and BPTT chunkers of the Unbabel/text fork of
torchtext), together with proofs of the behavioural properties stated in the
specification.

Conventions used throughout:
* Python lists of examples become `List α`; a sort key becomes `key : α → K`
  for a linear order `K`.
* Python ints become `Int` (sizes reported by `batch_size_fn` may be
  arbitrary integers); list lengths are `Nat` and are cast where needed.
* Python `sorted`/`list.sort` are stable sorts, modelled by `List.mergeSort`
  (which is also stable with respect to its `le` test).
* Generators become eagerly computed lists: the generators in the source are
  pure except for counter updates, which we thread explicitly, so the eager
  list of emitted values is observationally the same stream.
* A raised exception becomes an explicit error value; functions that can
  raise return the emitted prefix together with an `Option String` error.
* The `Batch(minibatch, dataset, device)` wrapper is an out-of-scope
  collaborator (it repackages the examples without reordering them), so an
  emitted batch is modelled as the `minibatch` list itself.
-/

namespace TorchText

/-- Python default `batch_size_fn` installed by `batch` when `None` is passed:
`def batch_size_fn(new, count, sofar): return count`. -/
def defaultBatchSizeFn {α : Type} : α → Nat → Int → Int :=
  fun _ count _ => (count : Int)

/-- The loop of `batch(data, batch_size, batch_size_fn)` (iterator.py lines
476-488).  The three components of the match are the remaining `data`, the
current `minibatch` and `size_so_far`.  In the overflow branch the source
yields `minibatch[:-1]`, which here (with `minibatch' = minibatch ++ [ex]`)
is `minibatch`, and restarts from `minibatch[-1:] = [ex]` with
`size_so_far = batch_size_fn(ex, 1, 0)`.  At exhaustion a non-empty
`minibatch` is yielded (`if minibatch: yield minibatch`). -/
def batchGo {α : Type} (f : α → Nat → Int → Int) (batch_size : Int) :
    List α → List α → Int → List (List α)
  | [], minibatch, _ => if minibatch.isEmpty then [] else [minibatch]
  | ex :: data, minibatch, size_so_far =>
    let minibatch' := minibatch ++ [ex]
    let s := f ex minibatch'.length size_so_far
    if s = batch_size then
      minibatch' :: batchGo f batch_size data [] 0
    else if s > batch_size then
      minibatch :: batchGo f batch_size data [ex] (f ex 1 0)
    else
      batchGo f batch_size data minibatch' s

/-- `batch(data, batch_size, batch_size_fn=None)` (iterator.py lines 471-488):
yield elements from `data` in chunks bounded by `batch_size`. -/
def batch {α : Type} (data : List α) (batch_size : Int)
    (batch_size_fn : Option (α → Nat → Int → Int)) : List (List α) :=
  batchGo (batch_size_fn.getD defaultBatchSizeFn) batch_size data [] 0

/-- Python `sorted(p, key=key)`: stable ascending sort by a key. -/
def pySortedByKey {α K : Type} [LinearOrder K] (key : α → K) (l : List α) :
    List α :=
  l.mergeSort (fun a b => decide (key a ≤ key b))

/-- Python `l.sort(key=key, reverse=True)`: stable descending sort by a key
(CPython keeps equal-key elements in their original relative order, as does
`mergeSort` with this comparison). -/
def pySortedByKeyDesc {α K : Type} [LinearOrder K] (key : α → K) (l : List α) :
    List α :=
  l.mergeSort (fun a b => decide (key b ≤ key a))

/-- The window loop of `pool` (iterator.py lines 501-510), processing the list
of lookahead windows produced by `batch`.  When `shuffle` is set and no
`random_shuffler` was injected, the source falls back to `random.shuffle`
(line 500), which shuffles in place and returns `None`; the subsequent
`for b in random_shuffler(list(p_batch))` then raises `TypeError` before any
batch of that window is yielded — modelled by the error component. -/
def poolGo {α K : Type} [LinearOrder K] (batch_size : Int) (key : α → K)
    (batch_size_fn : Option (α → Nat → Int → Int))
    (random_shuffler : Option (List (List α) → List (List α)))
    (shuffle sort_within_batch : Bool) :
    List (List α) → List (List α) × Option String
  | [] => ([], none)
  | p :: ps =>
    let p' := if sort_within_batch then pySortedByKey key p else p
    let p_batch := batch p' batch_size batch_size_fn
    if shuffle then
      match random_shuffler with
      | none => ([], some "TypeError: NoneType object is not iterable")
      | some rs =>
        let rest := poolGo batch_size key batch_size_fn random_shuffler
          shuffle sort_within_batch ps
        (rs p_batch ++ rest.1, rest.2)
    else
      let rest := poolGo batch_size key batch_size_fn random_shuffler
        shuffle sort_within_batch ps
      (p_batch ++ rest.1, rest.2)

/-- `pool(data, batch_size, key, batch_size_fn, random_shuffler, shuffle,
sort_within_batch, lookahead)` (iterator.py lines 491-510): partition `data`
into windows of capacity `batch_size * lookahead`, optionally sort each
window by `key`, re-batch it, and emit the window's batches either in order
or permuted by the shuffler. -/
def pool {α K : Type} [LinearOrder K] (data : List α) (batch_size : Int)
    (key : α → K) (batch_size_fn : Option (α → Nat → Int → Int))
    (random_shuffler : Option (List (List α) → List (List α)))
    (shuffle : Bool) (sort_within_batch : Bool) (lookahead : Int) :
    List (List α) × Option String :=
  poolGo batch_size key batch_size_fn random_shuffler shuffle sort_within_batch
    (batch data (batch_size * lookahead) batch_size_fn)

/-- Modelled from the spec: the `RandomShuffler` collaborator lives in
`torchtext/data/utils.py`, which is not under `src/`.  The spec describes it
as "a seedable pseudo-random permutation generator whose internal state can
be snapshotted and restored", whose state is "an opaque, serializable
snapshot of a pseudo-random generator's internal seed/counter ... restorable
to reproduce that epoch's exact permutation".  We model it as an opaque
state type `S` together with a deterministic transition `shuffleFn` mapping
the current state and the list to permute to the permuted list and the next
state; reading/assigning the `random_state` property corresponds to
reading/replacing the `S` component. -/
structure RandomShufflerModel (S : Type) where
  shuffleFn : S → List Nat → List Nat × S

/-- Configuration of an `Iterator` (constructor arguments after the
defaulting in `Iterator.__init__`, iterator.py lines 45-76), plus the
shuffler model shared by the instance. -/
structure IterConfig (α K S : Type) where
  dataset : List α
  batch_size : Int
  batch_size_fn : Option (α → Nat → Int → Int)
  sort_key : α → K
  sort : Bool
  shuffle : Bool
  sort_within_batch : Bool
  repeat' : Bool
  shuffler : RandomShufflerModel S

/-- Mutable state of an `Iterator` instance: the counters and shuffler state
set up in `__init__` and updated by `init_epoch`, `__iter__` and
`load_state_dict`. -/
structure IterState (S : Type) where
  iterations : Nat
  iterations_this_epoch : Nat
  random_state_this_epoch : Option S
  restored_from_state : Bool
  shuffler_state : S
deriving DecidableEq

namespace Iterator

/-- State of a freshly constructed `Iterator` (iterator.py lines 51, 71,
74-76): zero counters, no saved epoch state, not restored, and a fresh
shuffler whose initial state is `s`. -/
def initialState {S : Type} (s : S) : IterState S :=
  { iterations := 0
    iterations_this_epoch := 0
    random_state_this_epoch := none
    restored_from_state := false
    shuffler_state := s }

/-- `Iterator.data` (iterator.py lines 99-107): the dataset in sorted,
shuffled, or original order.  Only the shuffler state is read and advanced,
so the function maps a shuffler state to the view plus the next state.
Out-of-range indices produced by a (badly modelled) shuffler are dropped
where Python would raise `IndexError`; a shuffler that permutes
`range(len(dataset))` never produces any. -/
def dataList {α K S : Type} [LinearOrder K] (cfg : IterConfig α K S) (s : S) :
    List α × S :=
  if cfg.sort then
    (pySortedByKey cfg.sort_key cfg.dataset, s)
  else if cfg.shuffle then
    let r := cfg.shuffler.shuffleFn s (List.range cfg.dataset.length)
    (r.1.filterMap (fun i => cfg.dataset[i]?), r.2)
  else
    (cfg.dataset, s)

/-- `Iterator.create_batches` (iterator.py lines 127-128):
`self.batches = batch(self.data(), self.batch_size, self.batch_size_fn)`.
The argument `self.data()` is evaluated eagerly at the call. -/
def create_batches {α K S : Type} [LinearOrder K] (cfg : IterConfig α K S)
    (s : S) : List (List α) × S :=
  let r := dataList cfg s
  (batch r.1 cfg.batch_size cfg.batch_size_fn, r.2)

/-- `Iterator.init_epoch` (iterator.py lines 109-125).  If restoring, the
shuffler state is overwritten with the saved epoch state (the source would
assign `None` if no state was ever saved; `getD` keeps the current state in
that never-exercised-by-the-spec situation, where Python would fail later
inside `random.setstate`); otherwise the epoch-start shuffler state is
captured.  Then batches are created (consuming randomness when shuffling),
the restored flag or the within-epoch counter is cleared, and for
non-repeating iterators the global counter is reset. -/
def init_epoch {α K S : Type} [LinearOrder K] (cfg : IterConfig α K S)
    (st : IterState S) : List (List α) × IterState S :=
  let st1 :=
    if st.restored_from_state then
      { st with shuffler_state := st.random_state_this_epoch.getD st.shuffler_state }
    else
      { st with random_state_this_epoch := some st.shuffler_state }
  let r := create_batches cfg st1.shuffler_state
  let st2 := { st1 with shuffler_state := r.2 }
  let st3 :=
    if st2.restored_from_state then { st2 with restored_from_state := false }
    else { st2 with iterations_this_epoch := 0 }
  (r.1, if cfg.repeat' then st3 else { st3 with iterations := 0 })

/-- The in-place reorder applied to each emitted minibatch (iterator.py lines
148-155): when `sort_within_batch` is set, reverse an already
ascending-sorted batch if `sort` is set, else sort it descending by
`sort_key`. -/
def sortWithinBatchFix {α K S : Type} [LinearOrder K] (cfg : IterConfig α K S)
    (minibatch : List α) : List α :=
  if cfg.sort_within_batch then
    if cfg.sort then minibatch.reverse
    else pySortedByKeyDesc cfg.sort_key minibatch
  else minibatch

/-- The `for idx, minibatch in enumerate(self.batches)` loop of
`Iterator.__iter__` (iterator.py lines 142-156): skip batches with
`idx < iterations_this_epoch` (fast-forward after a restore), otherwise
bump both counters, reorder the minibatch, and emit it. -/
def emitFrom {α K S : Type} [LinearOrder K] (cfg : IterConfig α K S) :
    IterState S → List (List α) → Nat → List (List α) × IterState S
  | st, [], _ => ([], st)
  | st, minibatch :: rest, idx =>
    if idx < st.iterations_this_epoch then
      emitFrom cfg st rest (idx + 1)
    else
      let st' := { st with iterations := st.iterations + 1,
                           iterations_this_epoch := st.iterations_this_epoch + 1 }
      let r := emitFrom cfg st' rest (idx + 1)
      (sortWithinBatchFix cfg minibatch :: r.1, r.2)

/-- One epoch of `Iterator.__iter__` (iterator.py lines 139-158):
`init_epoch` followed by the emission loop.  With `repeat=False` this is the
whole (finite) run of the generator. -/
def runEpoch {α K S : Type} [LinearOrder K] (cfg : IterConfig α K S)
    (st : IterState S) : List (List α) × IterState S :=
  let r := init_epoch cfg st
  emitFrom cfg r.2 r.1 0

/-- The same emission loop when the caller stops pulling after `n` batches
(checkpointing is only legal between emissions); only the resulting iterator
state is of interest.  The per-batch reorder does not touch the state and is
omitted. -/
def emitUpTo {α K S : Type} [LinearOrder K] (cfg : IterConfig α K S) :
    IterState S → List (List α) → Nat → Nat → IterState S
  | st, _, _, 0 => st
  | st, [], _, _ + 1 => st
  | st, _ :: rest, idx, n + 1 =>
    if idx < st.iterations_this_epoch then
      emitUpTo cfg st rest (idx + 1) (n + 1)
    else
      emitUpTo cfg
        { st with iterations := st.iterations + 1,
                  iterations_this_epoch := st.iterations_this_epoch + 1 }
        rest (idx + 1) n
  termination_by _ bs _ n => (bs, n)

/-- Run an epoch but stop pulling after `n` emitted batches, returning the
iterator state at that point (the state a checkpoint would capture). -/
def runEpochUpTo {α K S : Type} [LinearOrder K] (cfg : IterConfig α K S)
    (st : IterState S) (n : Nat) : IterState S :=
  let r := init_epoch cfg st
  emitUpTo cfg r.2 r.1 0 n

/-- A checkpoint record as a Python dict with the three keys written by
`state_dict` (iterator.py lines 160-164).  An outer `none` models a missing
key; the value stored under `random_state_this_epoch` is itself optional
because the attribute may hold `None`. -/
structure StateDict (S : Type) where
  iterations : Option Nat
  iterations_this_epoch : Option Nat
  random_state_this_epoch : Option (Option S)

/-- `Iterator.state_dict` (iterator.py lines 160-164). -/
def state_dict {S : Type} (st : IterState S) : StateDict S :=
  { iterations := some st.iterations
    iterations_this_epoch := some st.iterations_this_epoch
    random_state_this_epoch := some st.random_state_this_epoch }

/-- `Iterator.load_state_dict` (iterator.py lines 166-170).  Each statement
looks up one key and assigns one attribute in order; a missing key raises
`KeyError` at that point, keeping the assignments already performed.  The
boolean result records whether the call completed (no exception). -/
def load_state_dict {S : Type} (st : IterState S) (sd : StateDict S) :
    IterState S × Bool :=
  match sd.iterations with
  | none => (st, false)
  | some its =>
    let st1 := { st with iterations := its }
    match sd.iterations_this_epoch with
    | none => (st1, false)
    | some ite =>
      let st2 := { st1 with iterations_this_epoch := ite }
      match sd.random_state_this_epoch with
      | none => (st2, false)
      | some rst =>
        ({ st2 with random_state_this_epoch := rst,
                    restored_from_state := true }, true)

/-- `Iterator.__len__` (iterator.py lines 134-137): raise
`NotImplementedError` when a `batch_size_fn` is configured, else
`math.ceil(len(dataset) / batch_size)` (exact rational division, then
ceiling). -/
def lenBatches {α : Type} (batch_size_fn : Option (α → Nat → Int → Int))
    (dataset_len : Nat) (batch_size : Int) : Except String Int :=
  match batch_size_fn with
  | some _ => Except.error "NotImplementedError"
  | none => Except.ok (Int.ceil ((dataset_len : ℚ) / (batch_size : ℚ)))

end Iterator

namespace BPTTIterator

/-- `math.ceil(a / b)` on Python ints (exact rational division then ceiling).
Python raises `ZeroDivisionError` for `b = 0`; here the rational division
yields `0`, a case no claim exercises. -/
def pyCeilDiv (a b : Nat) : Int :=
  Int.ceil ((a : ℚ) / (b : ℚ))

/-- `BPTTIterator.__len__` (iterator.py lines 224-226):
`math.ceil((len(text) / batch_size - 1) / cur_bptt_len)`. -/
def lenWindows (text_len batch_size bptt_len : Nat) : Int :=
  Int.ceil (((text_len : ℚ) / (batch_size : ℚ) - 1) / (bptt_len : ℚ))

/-- `BPTTIterator.prepare_text` (iterator.py lines 228-241), keeping the token
grid symbolic: pad `text` with `pad` up to `nb_batches * batch_size` tokens,
lay it out as `batch_size` contiguous rows of `nb_batches` tokens
(`view(batch_size, -1)`), and transpose (`t()`) to a `nb_batches × batch_size`
grid of timestep rows.  The numericalization to tensors is the out-of-scope
field collaborator and keeps the layout. -/
def prepare_text {τ : Type} (text : List τ) (pad : τ) (batch_size : Nat) :
    List (List τ) :=
  let nb_batches := (pyCeilDiv text.length batch_size).toNat
  let nb_iters := nb_batches * batch_size
  let padded := text ++ List.replicate (nb_iters - text.length) pad
  (padded.toChunks nb_batches).transpose

/-- The window loop of `BPTTIterator.__iter__` (iterator.py lines 243-262) for
one epoch: `for i in range(0, len(self) * cur_bptt_len, cur_bptt_len)` (for
`cur_bptt_len > 0` the steps are `i = k * cur_bptt_len` for
`k < len(self)`), with `seq_len = min(cur_bptt_len, len(data) - i - 1)`,
`batch_text = data[i:i+seq_len]`, `batch_target = data[i+1:i+1+seq_len]`,
both transposed when `batch_first`.  Counter updates and the
`Batch.fromvars` wrapper do not affect the emitted pair contents and are
omitted. -/
def iterPairs {τ : Type} (text : List τ) (pad : τ)
    (batch_size bptt_len : Nat) (batch_first : Bool) :
    List (List (List τ) × List (List τ)) :=
  let data := prepare_text text pad batch_size
  (List.range (lenWindows text.length batch_size bptt_len).toNat).map fun k =>
    let i := k * bptt_len
    let seq_len : Int := min (bptt_len : Int) ((data.length : Int) - (i : Int) - 1)
    let batch_text := (data.drop i).take seq_len.toNat
    let batch_target := (data.drop (i + 1)).take seq_len.toNat
    if batch_first then (batch_text.transpose, batch_target.transpose)
    else (batch_text, batch_target)

end BPTTIterator

namespace LazyBPTTIterator

/-- `LazyBPTTIterator.consume_data` (iterator.py lines 423-432): the same
window loop over a prepared grid `data`, with the window count `text_len`
passed in (`get_len` of the current text buffer). -/
def consume_data {τ : Type} (data : List (List τ)) (text_len : Int)
    (bptt_len : Nat) (batch_first : Bool) :
    List (List (List τ) × List (List τ)) :=
  (List.range text_len.toNat).map fun k =>
    let i := k * bptt_len
    let seq_len : Int := min (bptt_len : Int) ((data.length : Int) - (i : Int) - 1)
    let batch_text := (data.drop i).take seq_len.toNat
    let batch_target := (data.drop (i + 1)).take seq_len.toNat
    if batch_first then (batch_text.transpose, batch_target.transpose)
    else (batch_text, batch_target)

/-- The `while` loop at the top of `get_contiguous_buffer` (iterator.py lines
391-395): pop tokens from the front of `prev_text_buffer` onto
`text_buffer` while the latter is below `capacity` and the former is
non-empty. -/
def drainPrev {τ : Type} (capacity : Nat) :
    List τ → List τ → List τ × List τ
  | text_buffer, [] => (text_buffer, [])
  | text_buffer, w :: rest =>
    if text_buffer.length < capacity then
      drainPrev capacity (text_buffer ++ [w]) rest
    else
      (text_buffer, w :: rest)

/-- `LazyBPTTIterator.get_contiguous_buffer` (iterator.py lines 389-406),
with an example identified with its token list (`getattr(ex, field_name)`).
Returns the assembled `text_buffer` together with the final
`prev_text_buffer`.  Faithful to the source, `self.prev_text_buffer = []`
is re-executed for every example of the buffer, discarding tokens parked
there by earlier examples of the same pass. -/
def get_contiguous_buffer {τ : Type} (buffer : List (List τ))
    (prev_text_buffer : List τ) (buffer_size cur_bptt_len : Nat) :
    List τ × List τ :=
  let capacity := buffer_size * cur_bptt_len
  let start := drainPrev capacity [] prev_text_buffer
  if start.1.length = cur_bptt_len then start
  else
    buffer.foldl
      (fun acc text =>
        text.foldl
          (fun acc2 w =>
            if acc2.1.length + 1 ≤ capacity then (acc2.1 ++ [w], acc2.2)
            else (acc2.1, acc2.2 ++ [w]))
          (acc.1, ([] : List τ)))
      start

end LazyBPTTIterator

/-! ## General lemmas about `batch` and `pool` -/

theorem batchGo_flatten {α : Type} (f : α → Nat → Int → Int) (cap : Int)
    (data : List α) : ∀ (minibatch : List α) (s : Int),
    (batchGo f cap data minibatch s).flatten = minibatch ++ data := by
  induction data with
  | nil =>
    intro mb s
    by_cases h : mb.isEmpty
    · simp [batchGo, h, List.isEmpty_iff.mp h]
    · simp [batchGo, h]
  | cons ex rest ih =>
    intro mb s
    simp only [batchGo]
    split_ifs with h1 h2
    · simpa using ih [] 0
    · simpa [List.append_assoc] using ih [ex] (f ex 1 0)
    · simpa using ih (mb ++ [ex]) _

theorem batch_flatten {α : Type} (data : List α) (cap : Int)
    (f : Option (α → Nat → Int → Int)) :
    (batch data cap f).flatten = data := by
  simpa [batch] using batchGo_flatten (f.getD defaultBatchSizeFn) cap data [] 0

theorem batch_ne_nil {α : Type} {data : List α} (cap : Int)
    (f : Option (α → Nat → Int → Int)) (h : data ≠ []) :
    batch data cap f ≠ [] := by
  intro hb
  apply h
  have := batch_flatten data cap f
  rw [hb] at this
  simpa using this.symm

theorem batchGo_sorted {α : Type} {r : α → α → Prop} (f : α → Nat → Int → Int)
    (cap : Int) (data : List α) : ∀ (minibatch : List α) (s : Int),
    (minibatch ++ data).Sorted r →
    ∀ b ∈ batchGo f cap data minibatch s, b.Sorted r := by
  induction data with
  | nil =>
    intro mb s h b hb
    by_cases hmb : mb.isEmpty
    · simp [batchGo, hmb] at hb
    · simp [batchGo, hmb] at hb
      rw [hb]
      simpa using h
  | cons ex rest ih =>
    intro mb s h b hb
    simp only [batchGo] at hb
    split_ifs at hb with h1 h2
    · rcases List.mem_cons.mp hb with hb | hb
      · rw [hb]
        exact List.Pairwise.sublist
          ((List.Sublist.cons₂ ex (List.nil_sublist rest)).append_left mb) h
      · refine ih [] 0 ?_ b hb
        refine List.Pairwise.sublist ?_ h
        exact List.Sublist.trans (List.sublist_cons_self ex rest)
          (List.sublist_append_right mb (ex :: rest))
    · rcases List.mem_cons.mp hb with hb | hb
      · rw [hb]
        exact List.Pairwise.sublist (List.sublist_append_left mb (ex :: rest)) h
      · refine ih [ex] (f ex 1 0) ?_ b hb
        refine List.Pairwise.sublist ?_ h
        simp only [List.singleton_append]
        exact List.sublist_append_right mb (ex :: rest)
    · refine ih (mb ++ [ex]) _ ?_ b hb
      simpa [List.append_assoc] using h

theorem batch_sorted {α : Type} {r : α → α → Prop} {data : List α} (cap : Int)
    (f : Option (α → Nat → Int → Int)) (h : data.Sorted r) :
    ∀ b ∈ batch data cap f, b.Sorted r := by
  intro b hb
  exact batchGo_sorted _ cap data [] 0 (by simpa using h) b hb

theorem pySortedByKey_perm {α K : Type} [LinearOrder K] (key : α → K)
    (l : List α) : (pySortedByKey key l).Perm l :=
  List.mergeSort_perm l _

theorem pySortedByKey_sorted {α K : Type} [LinearOrder K] (key : α → K)
    (l : List α) :
    (pySortedByKey key l).Sorted (fun a b => key a ≤ key b) := by
  have h := @List.sorted_mergeSort α (fun a b => decide (key a ≤ key b))
    (fun a b c hab hbc => by
      simp only [decide_eq_true_eq] at hab hbc ⊢
      exact le_trans hab hbc)
    (fun a b => by
      simp only [Bool.or_eq_true, decide_eq_true_eq]
      exact le_total (key a) (key b))
    l
  exact h.imp (by intro a b hab; simpa using hab)

theorem pySortedByKeyDesc_sorted {α K : Type} [LinearOrder K] (key : α → K)
    (l : List α) :
    (pySortedByKeyDesc key l).Sorted (fun a b => key b ≤ key a) := by
  have h := @List.sorted_mergeSort α (fun a b => decide (key b ≤ key a))
    (fun a b c hab hbc => by
      simp only [decide_eq_true_eq] at hab hbc ⊢
      exact le_trans hbc hab)
    (fun a b => by
      simp only [Bool.or_eq_true, decide_eq_true_eq]
      exact le_total (key b) (key a))
    l
  exact h.imp (by intro a b hab; simpa using hab)

theorem poolGo_flatten_perm {α K : Type} [LinearOrder K] (cap : Int)
    (key : α → K) (f : Option (α → Nat → Int → Int))
    (rs : List (List α) → List (List α)) (hrs : ∀ bs, (rs bs).Perm bs)
    (shuffle swb : Bool) (ws : List (List α)) :
    ((poolGo cap key f (some rs) shuffle swb ws).1.flatten).Perm ws.flatten := by
  induction ws with
  | nil => simp [poolGo]
  | cons p ps ih =>
    have hwin : ((batch (if swb then pySortedByKey key p else p) cap f).flatten).Perm p := by
      rw [batch_flatten]
      split_ifs with h
      · exact pySortedByKey_perm key p
      · exact List.Perm.refl p
    cases shuffle with
    | true =>
      simp only [poolGo, if_true, List.flatten_cons, List.flatten_append]
      refine List.Perm.append ?_ ih
      exact ((hrs _).flatten).trans hwin
    | false =>
      simp only [poolGo, Bool.false_eq_true, if_false, List.flatten_cons,
        List.flatten_append]
      exact List.Perm.append hwin ih

theorem poolGo_sorted {α K : Type} [LinearOrder K] (cap : Int)
    (key : α → K) (f : Option (α → Nat → Int → Int))
    (rs : List (List α) → List (List α)) (hrs : ∀ bs, (rs bs).Perm bs)
    (shuffle : Bool) (ws : List (List α)) :
    ∀ b ∈ (poolGo cap key f (some rs) shuffle true ws).1,
      b.Sorted (fun x y => key x ≤ key y) := by
  induction ws with
  | nil => simp [poolGo]
  | cons p ps ih =>
    intro b hb
    have hsorted : ∀ b ∈ batch (pySortedByKey key p) cap f,
        b.Sorted (fun x y => key x ≤ key y) :=
      batch_sorted cap f (pySortedByKey_sorted key p)
    cases shuffle with
    | true =>
      simp only [poolGo, if_true, List.mem_append] at hb
      rcases hb with hb | hb
      · exact hsorted b ((hrs _).mem_iff.mp hb)
      · exact ih b hb
    | false =>
      simp only [poolGo, Bool.false_eq_true, if_false, List.mem_append] at hb
      rcases hb with hb | hb
      · exact hsorted b hb
      · exact ih b hb

/-! ## Claim theorems about `batch` and `pool` -/

/-- Claim C2: for every finite input sequence, capacity, and size function,
the multiset union of all batches emitted in one epoch by the `batch` and
`pool` primitives equals the multiset of input examples: every example
appears in exactly one emitted batch, none is duplicated and none is
dropped.  (For `pool`, the injected shuffler is assumed to permute the
batch list it is given, which is what `RandomShuffler` does.) -/
theorem epoch_coverage_no_loss {α K : Type} [LinearOrder K] (data : List α)
    (cap lookahead : Int) (key : α → K) (f : Option (α → Nat → Int → Int))
    (rs : List (List α) → List (List α)) (hrs : ∀ bs, (rs bs).Perm bs)
    (shuffle sort_within_batch : Bool) :
    ((batch data cap f).flatten : Multiset α) = (data : Multiset α) ∧
    ((pool data cap key f (some rs) shuffle sort_within_batch lookahead).1.flatten
      : Multiset α) = (data : Multiset α) := by
  constructor
  · rw [batch_flatten]
  · rw [Multiset.coe_eq_coe]
    have h1 := poolGo_flatten_perm cap key f rs hrs shuffle sort_within_batch
      (batch data (cap * lookahead) f)
    have h2 : ((batch data (cap * lookahead) f).flatten).Perm data := by
      rw [batch_flatten]
    exact h1.trans h2

/-- Witness for C2 at a concrete input (shuffler = `List.reverse`). -/
theorem epoch_coverage_no_loss_witness :
    (∀ bs : List (List Nat), (bs.reverse).Perm bs) ∧
    (((batch [1, 2, 3] 2 (none : Option (Nat → Nat → Int → Int))).flatten
        : Multiset Nat) = ([1, 2, 3] : Multiset Nat) ∧
     ((pool [1, 2, 3] 2 (fun n : Nat => n) none (some List.reverse) true true
        1).1.flatten : Multiset Nat) = ([1, 2, 3] : Multiset Nat)) :=
  ⟨fun bs => bs.reverse_perm,
   epoch_coverage_no_loss [1, 2, 3] 2 1 (fun n : Nat => n) none List.reverse
     (fun bs => bs.reverse_perm) true true⟩

/-- Claim C3: the `batch` primitive closes a batch with the current example
when the running total computed by the size function exactly equals the
capacity, and closes it without the current example (which starts the next
batch, with the running total restarted as `f ex 1 0`) when the running
total strictly exceeds capacity; a trailing non-empty partial batch is
always emitted at source exhaustion, and empty input produces zero
batches. -/
theorem batch_close_rules {α : Type} (cap : Int) (f : α → Nat → Int → Int) :
    (batch ([] : List α) cap (some f) = []) ∧
    (∀ (ex : α) (rest minibatch : List α) (s : Int),
        f ex (minibatch.length + 1) s = cap →
        batchGo f cap (ex :: rest) minibatch s =
          (minibatch ++ [ex]) :: batchGo f cap rest [] 0) ∧
    (∀ (ex : α) (rest minibatch : List α) (s : Int),
        cap < f ex (minibatch.length + 1) s →
        batchGo f cap (ex :: rest) minibatch s =
          minibatch :: batchGo f cap rest [ex] (f ex 1 0)) ∧
    (∀ (minibatch : List α) (s : Int), minibatch ≠ [] →
        batchGo f cap [] minibatch s = [minibatch]) := by
  refine ⟨by simp [batch, batchGo], ?_, ?_, ?_⟩
  · intro ex rest mb s h
    have hlen : (mb ++ [ex]).length = mb.length + 1 := by simp
    simp [batchGo, hlen, h]
  · intro ex rest mb s h
    have hlen : (mb ++ [ex]).length = mb.length + 1 := by simp
    have hne : f ex (mb.length + 1) s ≠ cap := ne_of_gt h
    simp [batchGo, hlen, hne, h]
  · intro mb s h
    simp [batchGo, List.isEmpty_iff, h]

/-- Witness for C3: each closure rule applied at a concrete input. -/
theorem batch_close_rules_witness :
    (batch ([] : List Nat) 3 (some fun _ c _ => (c : Int)) = []) ∧
    (batchGo (fun _ c _ => (c : Int)) 3 [7] [5, 6] 2 =
      ([5, 6] ++ [7]) :: batchGo (fun _ c _ => (c : Int)) 3 [] [] 0) ∧
    (batchGo (fun _ _ _ => (5 : Int)) 3 [7] [5, 6] 2 =
      [5, 6] :: batchGo (fun _ _ _ => (5 : Int)) 3 [] [7] 5) ∧
    (batchGo (fun _ c _ => (c : Int)) 3 [] [9] 1 = [[9]]) :=
  ⟨(batch_close_rules 3 (fun _ c _ => (c : Int))).1,
   (batch_close_rules 3 (fun _ c _ => (c : Int))).2.1 7 [] [5, 6] 2 (by decide),
   (batch_close_rules 3 (fun _ _ _ => (5 : Int))).2.2.1 7 [] [5, 6] 2 (by decide),
   (batch_close_rules 3 (fun _ c _ => (c : Int))).2.2.2 [9] 1 (by decide)⟩

/-- Claim C4 counterexample: with `sort_within_batch = false` the `pool`
primitive does NOT sort the lookahead window: the window `[2, 1]` is
re-batched in arrival order and the emitted batch `[2, 1]` is not ascending
by the key, refuting the claim that the per-window sort is unconditional. -/
theorem pool_unconditional_sort_counterexample :
    pool [2, 1] 2 (fun n : Nat => n) none none false false 1 = ([[2, 1]], none) ∧
    ¬ List.Sorted (fun a b : Nat => a ≤ b) [2, 1] := by
  constructor
  · rfl
  · decide

/-- Claim C4 (amended): the `pool` primitive sorts the examples of each
lookahead window ascending by `sort_key` exactly when `sort_within_batch`
is true — then independently of the `shuffle` flag — before re-batching the
window into capacity-bounded batches; consequently every emitted batch is
ascending by the key. -/
theorem pool_sorts_windows_when_sort_within_batch {α K : Type} [LinearOrder K]
    (data : List α) (cap lookahead : Int) (key : α → K)
    (f : Option (α → Nat → Int → Int))
    (rs : List (List α) → List (List α)) (hrs : ∀ bs, (rs bs).Perm bs)
    (shuffle : Bool) :
    ∀ b ∈ (pool data cap key f (some rs) shuffle true lookahead).1,
      b.Sorted (fun x y => key x ≤ key y) := by
  intro b hb
  exact poolGo_sorted cap key f rs hrs shuffle _ b hb

/-- Witness for the amended C4 at a concrete input. -/
theorem pool_sorts_windows_witness :
    (∀ bs : List (List Nat), (bs.reverse).Perm bs) ∧
    ∀ b ∈ (pool [3, 1, 2] 2 (fun n : Nat => n) none (some List.reverse) true
        true 1).1,
      b.Sorted (fun x y : Nat => x ≤ y) :=
  ⟨fun bs => bs.reverse_perm,
   pool_sorts_windows_when_sort_within_batch [3, 1, 2] 2 1 (fun n : Nat => n)
     none List.reverse (fun bs => bs.reverse_perm) true⟩

/-- Claim C10: for every non-empty input, calling `pool` with
`shuffle = true` and no injected `random_shuffler` fails before any batch
is emitted: the fallback is the in-place `random.shuffle`, whose `None`
return value is then iterated, raising `TypeError` at the first window. -/
theorem pool_no_shuffler_raises {α K : Type} [LinearOrder K] (data : List α)
    (cap lookahead : Int) (key : α → K) (f : Option (α → Nat → Int → Int))
    (sort_within_batch : Bool) (hne : data ≠ []) :
    pool data cap key f none true sort_within_batch lookahead =
      ([], some "TypeError: NoneType object is not iterable") := by
  unfold pool
  rcases hw : batch data (cap * lookahead) f with _ | ⟨w, ws⟩
  · exact absurd hw (batch_ne_nil (cap * lookahead) f hne)
  · simp [poolGo]

/-- Witness for C10 at a concrete input. -/
theorem pool_no_shuffler_raises_witness :
    ([1] : List Nat) ≠ [] ∧
    pool [1] 2 (fun n : Nat => n) none none true false 1 =
      ([], some "TypeError: NoneType object is not iterable") :=
  ⟨by decide,
   pool_no_shuffler_raises [1] 2 1 (fun n : Nat => n) none false (by decide)⟩

/-! ## Lemmas about the epoch/iteration state machine -/

theorem emitFrom_fst {α K S : Type} [LinearOrder K] (cfg : IterConfig α K S)
    (bs : List (List α)) (st : IterState S) (idx : Nat) :
    (Iterator.emitFrom cfg st bs idx).1 =
      (bs.drop (st.iterations_this_epoch - idx)).map
        (Iterator.sortWithinBatchFix cfg) := by
  induction bs generalizing st idx with
  | nil => simp [Iterator.emitFrom]
  | cons mb rest ih =>
    simp only [Iterator.emitFrom]
    split_ifs with h
    · rw [ih st (idx + 1)]
      have hk : st.iterations_this_epoch - idx =
          (st.iterations_this_epoch - (idx + 1)) + 1 := by omega
      rw [hk, List.drop_succ_cons]
    · rw [ih _ (idx + 1)]
      have h0 : st.iterations_this_epoch - idx = 0 := by omega
      have h1 : st.iterations_this_epoch + 1 - (idx + 1) = 0 := by omega
      simp [h0, h1]

theorem emitFrom_snd_shuffler {α K S : Type} [LinearOrder K]
    (cfg : IterConfig α K S) (bs : List (List α)) (st : IterState S)
    (idx : Nat) :
    (Iterator.emitFrom cfg st bs idx).2.shuffler_state = st.shuffler_state := by
  induction bs generalizing st idx with
  | nil => simp [Iterator.emitFrom]
  | cons mb rest ih =>
    simp only [Iterator.emitFrom]
    split_ifs with h
    · exact ih st (idx + 1)
    · exact ih _ (idx + 1)

theorem emitUpTo_ite {α K S : Type} [LinearOrder K] (cfg : IterConfig α K S)
    (bs : List (List α)) (st : IterState S) (idx n : Nat)
    (h : st.iterations_this_epoch = idx) :
    (Iterator.emitUpTo cfg st bs idx n).iterations_this_epoch =
      idx + min n bs.length := by
  induction bs generalizing st idx n with
  | nil =>
    cases n with
    | zero => simpa [Iterator.emitUpTo] using h
    | succ n => simpa [Iterator.emitUpTo] using h
  | cons mb rest ih =>
    cases n with
    | zero => simpa [Iterator.emitUpTo] using h
    | succ n =>
      simp only [Iterator.emitUpTo]
      split_ifs with hlt
      · exact absurd hlt (by omega)
      · rw [ih _ (idx + 1) n (by simp [h])]
        simp only [List.length_cons, Nat.succ_min_succ]
        omega

theorem emitUpTo_rst {α K S : Type} [LinearOrder K] (cfg : IterConfig α K S)
    (bs : List (List α)) (st : IterState S) (idx n : Nat) :
    (Iterator.emitUpTo cfg st bs idx n).random_state_this_epoch =
      st.random_state_this_epoch := by
  induction bs generalizing st idx n with
  | nil =>
    cases n with
    | zero => simp [Iterator.emitUpTo]
    | succ n => simp [Iterator.emitUpTo]
  | cons mb rest ih =>
    cases n with
    | zero => simp [Iterator.emitUpTo]
    | succ n =>
      simp only [Iterator.emitUpTo]
      split_ifs with hlt
      · exact ih st (idx + 1) (n + 1)
      · exact ih _ (idx + 1) n

theorem init_epoch_not_restored {α K S : Type} [LinearOrder K]
    (cfg : IterConfig α K S) (st : IterState S)
    (h : st.restored_from_state = false) :
    Iterator.init_epoch cfg st =
      ((Iterator.create_batches cfg st.shuffler_state).1,
       { st with random_state_this_epoch := some st.shuffler_state,
                 shuffler_state := (Iterator.create_batches cfg st.shuffler_state).2,
                 iterations_this_epoch := 0,
                 iterations := if cfg.repeat' then st.iterations else 0 }) := by
  rcases st with ⟨its, ite, rst, rest, ss⟩
  simp only at h
  subst h
  by_cases hr : cfg.repeat' <;> simp [Iterator.init_epoch, hr]

theorem init_epoch_restored {α K S : Type} [LinearOrder K]
    (cfg : IterConfig α K S) (st : IterState S) (s0 : S)
    (h : st.restored_from_state = true)
    (hrst : st.random_state_this_epoch = some s0) :
    Iterator.init_epoch cfg st =
      ((Iterator.create_batches cfg s0).1,
       { st with shuffler_state := (Iterator.create_batches cfg s0).2,
                 restored_from_state := false,
                 iterations := if cfg.repeat' then st.iterations else 0 }) := by
  rcases st with ⟨its, ite, rst, rest, ss⟩
  simp only at h hrst
  subst h
  subst hrst
  by_cases hr : cfg.repeat' <;> simp [Iterator.init_epoch, hr]

theorem init_epoch_fst_create {α K S : Type} [LinearOrder K]
    (cfg : IterConfig α K S) (st : IterState S) :
    ∃ s', (Iterator.init_epoch cfg st).1 = (Iterator.create_batches cfg s').1 := by
  refine ⟨if st.restored_from_state then
            st.random_state_this_epoch.getD st.shuffler_state
          else st.shuffler_state, ?_⟩
  rcases st with ⟨its, ite, rst, rest, ss⟩
  cases rest <;> simp [Iterator.init_epoch]

/-! ## Claim theorems about the state machine -/

/-- Claim C5: with `sort_within_batch = true`, every batch emitted by
`Iterator.__iter__` has its examples in non-increasing order by `sort_key`:
when `sort` is also true the already ascending-sorted batch is reversed,
otherwise the batch is explicitly sorted descending by `sort_key`. -/
theorem iter_sort_within_batch_descending {α K S : Type} [LinearOrder K]
    (cfg : IterConfig α K S) (st : IterState S)
    (hswb : cfg.sort_within_batch = true) :
    ∀ b ∈ (Iterator.runEpoch cfg st).1,
      b.Sorted (fun a c => cfg.sort_key c ≤ cfg.sort_key a) := by
  intro b hb
  simp only [Iterator.runEpoch] at hb
  rw [emitFrom_fst] at hb
  rcases List.mem_map.mp hb with ⟨mb, hmb, rfl⟩
  have hmb' : mb ∈ (Iterator.init_epoch cfg st).1 := List.mem_of_mem_drop hmb
  obtain ⟨s', hs'⟩ := init_epoch_fst_create cfg st
  rw [hs'] at hmb'
  by_cases hsort : cfg.sort
  · have hasc : mb.Sorted (fun x y => cfg.sort_key x ≤ cfg.sort_key y) := by
      have hmem : mb ∈ batch (pySortedByKey cfg.sort_key cfg.dataset)
          cfg.batch_size cfg.batch_size_fn := by
        simpa [Iterator.create_batches, Iterator.dataList, hsort] using hmb'
      exact batch_sorted cfg.batch_size cfg.batch_size_fn
        (pySortedByKey_sorted cfg.sort_key cfg.dataset) mb hmem
    simp only [Iterator.sortWithinBatchFix, hswb, hsort, if_true]
    exact List.pairwise_reverse.mpr hasc
  · simp only [Iterator.sortWithinBatchFix, hswb, hsort, if_true, if_false]
    exact pySortedByKeyDesc_sorted cfg.sort_key mb

/-- Witness for C5 at a concrete configuration. -/
theorem iter_sort_within_batch_descending_witness :
    (IterConfig.sort_within_batch
      ({ dataset := [2, 1, 3], batch_size := 2, batch_size_fn := none,
         sort_key := fun n : Nat => n, sort := false, shuffle := false,
         sort_within_batch := true, repeat' := false,
         shuffler := ⟨fun s l => (l, s)⟩ } : IterConfig Nat Nat Unit)) = true ∧
    ∀ b ∈ (Iterator.runEpoch
        ({ dataset := [2, 1, 3], batch_size := 2, batch_size_fn := none,
           sort_key := fun n : Nat => n, sort := false, shuffle := false,
           sort_within_batch := true, repeat' := false,
           shuffler := ⟨fun s l => (l, s)⟩ } : IterConfig Nat Nat Unit)
        (Iterator.initialState ())).1,
      b.Sorted (fun a c : Nat => c ≤ a) :=
  ⟨rfl, iter_sort_within_batch_descending _ (Iterator.initialState ()) rfl⟩

/-- Claim C1: running an `Iterator`, exporting a checkpoint via `state_dict`
after `N` emitted batches, importing it into a fresh instance with
`load_state_dict` and iterating again yields exactly the same remaining
sequence of batches (same contents, same order) as the uninterrupted run;
the fast-forwarded prefix is regenerated deterministically from the
restored epoch-start shuffler state and consumes no additional randomness
(the resumed run ends with the same shuffler state as the uninterrupted
one). -/
theorem checkpoint_replay_equivalence {α K S : Type} [LinearOrder K]
    (cfg : IterConfig α K S) (s0 sFresh : S) (N : Nat) :
    (Iterator.load_state_dict (Iterator.initialState sFresh)
        (Iterator.state_dict
          (Iterator.runEpochUpTo cfg (Iterator.initialState s0) N))).2 = true ∧
    (Iterator.runEpoch cfg
        (Iterator.load_state_dict (Iterator.initialState sFresh)
          (Iterator.state_dict
            (Iterator.runEpochUpTo cfg (Iterator.initialState s0) N))).1).1 =
      ((Iterator.runEpoch cfg (Iterator.initialState s0)).1).drop N ∧
    (Iterator.runEpoch cfg
        (Iterator.load_state_dict (Iterator.initialState sFresh)
          (Iterator.state_dict
            (Iterator.runEpochUpTo cfg
              (Iterator.initialState s0) N))).1).2.shuffler_state =
      (Iterator.runEpoch cfg (Iterator.initialState s0)).2.shuffler_state := by
  have hinit0 : Iterator.init_epoch cfg (Iterator.initialState s0) =
      ((Iterator.create_batches cfg s0).1,
       { iterations := 0, iterations_this_epoch := 0,
         random_state_this_epoch := some s0, restored_from_state := false,
         shuffler_state := (Iterator.create_batches cfg s0).2 }) := by
    rw [init_epoch_not_restored cfg (Iterator.initialState s0) rfl]
    simp [Iterator.initialState]
  have hup : Iterator.runEpochUpTo cfg (Iterator.initialState s0) N =
      Iterator.emitUpTo cfg
        { iterations := 0, iterations_this_epoch := 0,
          random_state_this_epoch := some s0, restored_from_state := false,
          shuffler_state := (Iterator.create_batches cfg s0).2 }
        (Iterator.create_batches cfg s0).1 0 N := by
    simp only [Iterator.runEpochUpTo]
    rw [hinit0]
  have hite : (Iterator.runEpochUpTo cfg
      (Iterator.initialState s0) N).iterations_this_epoch =
      min N (Iterator.create_batches cfg s0).1.length := by
    rw [hup]
    simpa using emitUpTo_ite cfg (Iterator.create_batches cfg s0).1 _ 0 N rfl
  have hrst : (Iterator.runEpochUpTo cfg
      (Iterator.initialState s0) N).random_state_this_epoch = some s0 := by
    rw [hup]
    exact emitUpTo_rst cfg (Iterator.create_batches cfg s0).1 _ 0 N
  have hload : Iterator.load_state_dict (Iterator.initialState sFresh)
      (Iterator.state_dict (Iterator.runEpochUpTo cfg (Iterator.initialState s0) N)) =
      ({ iterations :=
           (Iterator.runEpochUpTo cfg (Iterator.initialState s0) N).iterations,
         iterations_this_epoch :=
           (Iterator.runEpochUpTo cfg
             (Iterator.initialState s0) N).iterations_this_epoch,
         random_state_this_epoch :=
           (Iterator.runEpochUpTo cfg
             (Iterator.initialState s0) N).random_state_this_epoch,
         restored_from_state := true,
         shuffler_state := sFresh }, true) := rfl
  have hload2 : (Iterator.load_state_dict (Iterator.initialState sFresh)
      (Iterator.state_dict
        (Iterator.runEpochUpTo cfg (Iterator.initialState s0) N))).1 =
      { iterations :=
          (Iterator.runEpochUpTo cfg (Iterator.initialState s0) N).iterations,
        iterations_this_epoch :=
          (Iterator.runEpochUpTo cfg
            (Iterator.initialState s0) N).iterations_this_epoch,
        random_state_this_epoch :=
          (Iterator.runEpochUpTo cfg
            (Iterator.initialState s0) N).random_state_this_epoch,
        restored_from_state := true,
        shuffler_state := sFresh } := by rw [hload]
  have hinit1 := init_epoch_restored cfg
      { iterations :=
          (Iterator.runEpochUpTo cfg (Iterator.initialState s0) N).iterations,
        iterations_this_epoch :=
          (Iterator.runEpochUpTo cfg
            (Iterator.initialState s0) N).iterations_this_epoch,
        random_state_this_epoch :=
          (Iterator.runEpochUpTo cfg
            (Iterator.initialState s0) N).random_state_this_epoch,
        restored_from_state := true,
        shuffler_state := sFresh } s0 rfl hrst
  refine ⟨by rw [hload], ?_, ?_⟩
  · rw [hload2]
    simp only [Iterator.runEpoch]
    rw [hinit1, hinit0]
    rw [emitFrom_fst, emitFrom_fst]
    simp only [Nat.sub_zero, List.drop_zero, hite]
    rw [← List.map_drop]
    congr 1
    rcases le_total N (Iterator.create_batches cfg s0).1.length with h | h
    · rw [min_eq_left h]
    · rw [min_eq_right h, List.drop_eq_nil_of_le (le_refl _),
        List.drop_eq_nil_of_le h]
  · rw [hload2]
    simp only [Iterator.runEpoch]
    rw [hinit1, hinit0]
    rw [emitFrom_snd_shuffler, emitFrom_snd_shuffler]

/-! ## Claim theorems about the BPTT chunkers and checkpoint records -/

theorem take_drop_alignment {ρ : Type} (d : List ρ) (i sl j : Nat)
    (h : j + 1 < ((d.drop i).take sl).length) :
    ((d.drop (i + 1)).take sl)[j]? = ((d.drop i).take sl)[j + 1]? := by
  have hj1 : j + 1 < sl := by
    simp only [List.length_take, List.length_drop] at h
    omega
  have hj : j < sl := by omega
  rw [List.getElem?_take, List.getElem?_take, if_pos hj, if_pos hj1,
    List.getElem?_drop, List.getElem?_drop]
  congr 1
  omega

/-- Claim C6: for every emitted `(text, target)` window pair of the BPTT
chunker (`BPTTIterator.__iter__`) and its streaming variant
(`LazyBPTTIterator.consume_data`), `target[j] = text[j+1]` holds for all
valid `j` within the shared window length, and the number of emitted
windows equals the computed window count (so a final window shorter than
the configured BPTT length is still emitted rather than dropped). -/
theorem bptt_target_alignment {τ : Type} (text : List τ) (pad : τ)
    (batch_size bptt_len : Nat) (hB : 0 < batch_size) (hL : 0 < bptt_len)
    (data : List (List τ)) (text_len : Int) :
    (∀ p ∈ BPTTIterator.iterPairs text pad batch_size bptt_len false,
       ∀ j : Nat, j + 1 < p.1.length → p.2[j]? = p.1[j + 1]?) ∧
    (BPTTIterator.iterPairs text pad batch_size bptt_len false).length =
      (BPTTIterator.lenWindows text.length batch_size bptt_len).toNat ∧
    (∀ p ∈ LazyBPTTIterator.consume_data data text_len bptt_len false,
       ∀ j : Nat, j + 1 < p.1.length → p.2[j]? = p.1[j + 1]?) ∧
    (LazyBPTTIterator.consume_data data text_len bptt_len false).length =
      text_len.toNat := by
  refine ⟨?_, by simp [BPTTIterator.iterPairs], ?_,
    by simp [LazyBPTTIterator.consume_data]⟩
  · intro p hp j hj
    simp only [BPTTIterator.iterPairs, List.mem_map, List.mem_range] at hp
    obtain ⟨k, hk, rfl⟩ := hp
    simp only [Bool.false_eq_true, if_false] at hj ⊢
    exact take_drop_alignment _ _ _ j hj
  · intro p hp j hj
    simp only [LazyBPTTIterator.consume_data, List.mem_map, List.mem_range] at hp
    obtain ⟨k, hk, rfl⟩ := hp
    simp only [Bool.false_eq_true, if_false] at hj ⊢
    exact take_drop_alignment _ _ _ j hj

/-- Witness for C6 at a concrete input (`text` of 10 tokens, width 2,
BPTT length 3: the final window is shorter than 3 and still emitted). -/
theorem bptt_target_alignment_witness :
    (0 < 2 ∧ 0 < 3) ∧
    ((∀ p ∈ BPTTIterator.iterPairs [0, 1, 2, 3, 4, 5, 6, 7, 8, 9] 99 2 3 false,
        ∀ j : Nat, j + 1 < p.1.length → p.2[j]? = p.1[j + 1]?) ∧
     (BPTTIterator.iterPairs [0, 1, 2, 3, 4, 5, 6, 7, 8, 9] 99 2 3 false).length =
       (BPTTIterator.lenWindows (List.length [0, 1, 2, 3, 4, 5, 6, 7, 8, 9]) 2 3).toNat ∧
     (∀ p ∈ LazyBPTTIterator.consume_data [[5], [6]] 1 3 false,
        ∀ j : Nat, j + 1 < p.1.length → p.2[j]? = p.1[j + 1]?) ∧
     (LazyBPTTIterator.consume_data ([[5], [6]] : List (List Nat)) 1 3 false).length =
       (1 : Int).toNat) :=
  ⟨⟨by decide, by decide⟩,
   bptt_target_alignment [0, 1, 2, 3, 4, 5, 6, 7, 8, 9] 99 2 3 (by decide)
     (by decide) [[5], [6]] 1⟩

/-- Claim C7 (the code evaluated at a failing input): with capacity
`buffer_size * cur_bptt_len = 2`, buffered examples `[[1, 2, 3], [4]]` and
no carried tokens, `get_contiguous_buffer` consumes `[1, 2]` and carries
forward only `[4]`: the leftover token `3` of the first example is
discarded when the second example re-runs `self.prev_text_buffer = []`, so
the consumed stream plus the carry loses a token of the original
contiguous stream `[1, 2, 3, 4]`. -/
theorem get_contiguous_buffer_drops_leftovers :
    LazyBPTTIterator.get_contiguous_buffer [[1, 2, 3], [4]] ([] : List Nat) 2 1 =
      ([1, 2], [4]) ∧
    ([1, 2] ++ [4] : List Nat) ≠
      ([] : List Nat) ++ ([[1, 2, 3], [4]] : List (List Nat)).flatten := by
  constructor
  · rfl
  · decide

/-- Claim C8: the batches-per-epoch query (`Iterator.__len__`) raises
`NotImplementedError` if and only if a dynamic `batch_size_fn` is
configured; with none configured it returns `ceil(len(dataset) /
batch_size)`, the unique integer `q` with `b*(q-1) < n ≤ b*q`. -/
theorem len_query_spec {α : Type} (n : Nat) (b : Int) (hb : 0 < b)
    (f : α → Nat → Int → Int) :
    (Iterator.lenBatches (some f) n b = Except.error "NotImplementedError") ∧
    (∃ q : Int, Iterator.lenBatches (α := α) none n b = Except.ok q ∧
      b * (q - 1) < (n : Int) ∧ (n : Int) ≤ b * q) := by
  refine ⟨rfl, ⟨Int.ceil ((n : ℚ) / (b : ℚ)), rfl, ?_, ?_⟩⟩
  · have hbQ : (0 : ℚ) < (b : ℚ) := by exact_mod_cast hb
    have h2 : ((Int.ceil ((n : ℚ) / (b : ℚ)) - 1 : Int) : ℚ) <
        (n : ℚ) / (b : ℚ) := Int.lt_ceil.mp (by omega)
    have h3 := (lt_div_iff₀ hbQ).mp h2
    have h4 : ((b * (Int.ceil ((n : ℚ) / (b : ℚ)) - 1) : Int) : ℚ) <
        ((n : Int) : ℚ) := by
      push_cast at h3 ⊢
      linarith
    exact_mod_cast h4
  · have hbQ : (0 : ℚ) < (b : ℚ) := by exact_mod_cast hb
    have h2 : (n : ℚ) / (b : ℚ) ≤ (Int.ceil ((n : ℚ) / (b : ℚ)) : ℚ) :=
      Int.le_ceil _
    have h3 := (div_le_iff₀ hbQ).mp h2
    have h4 : ((n : Int) : ℚ) ≤
        ((b * Int.ceil ((n : ℚ) / (b : ℚ)) : Int) : ℚ) := by
      push_cast at h3 ⊢
      linarith
    exact_mod_cast h4

/-- Witness for C8 at a concrete input (`n = 5`, `b = 2`, so the query
returns 3). -/
theorem len_query_spec_witness :
    ((0 : Int) < 2) ∧
    (Iterator.lenBatches (some fun (_ : Nat) c _ => (c : Int)) 5 2 =
      Except.error "NotImplementedError") ∧
    (∃ q : Int, Iterator.lenBatches (α := Nat) none 5 2 = Except.ok q ∧
      2 * (q - 1) < (5 : Int) ∧ (5 : Int) ≤ 2 * q) :=
  ⟨by decide,
   (len_query_spec 5 2 (by decide) (fun (_ : Nat) c _ => (c : Int))).1,
   (len_query_spec (α := Nat) 5 2 (by decide)
     (fun (_ : Nat) c _ => (c : Int))).2⟩

/-- Claim C9 counterexample: a checkpoint record carrying `iterations` but
missing `iterations_this_epoch` makes `load_state_dict` fail, yet the
iterator state has already been mutated (`iterations` was assigned before
the missing key was looked up) — a partial restore, refuting "no partial
restore of any counter or shuffler state occurs on error". -/
theorem load_state_dict_partial_restore_counterexample :
    (Iterator.load_state_dict (Iterator.initialState ())
        ({ iterations := some 5, iterations_this_epoch := none,
           random_state_this_epoch := none } : Iterator.StateDict Unit)).2 =
      false ∧
    (Iterator.load_state_dict (Iterator.initialState ())
        ({ iterations := some 5, iterations_this_epoch := none,
           random_state_this_epoch := none } : Iterator.StateDict Unit)).1 ≠
      Iterator.initialState () := by
  refine ⟨rfl, ?_⟩
  decide

/-- Claim C9 (amended): `load_state_dict` fails fast at the first missing
key, but the assignments already executed persist: a record missing
`iterations` leaves the state unchanged; a record with `iterations` but
missing `iterations_this_epoch` updates only the `iterations` counter; a
record missing only `random_state_this_epoch` updates both counters; a
complete record restores all three fields and marks the iterator restored,
and the call succeeds exactly in that case. -/
theorem load_state_dict_prefix_restore {S : Type} (st : IterState S)
    (sd : Iterator.StateDict S) :
    (sd.iterations = none → Iterator.load_state_dict st sd = (st, false)) ∧
    (∀ its, sd.iterations = some its → sd.iterations_this_epoch = none →
      Iterator.load_state_dict st sd = ({ st with iterations := its }, false)) ∧
    (∀ its ite, sd.iterations = some its →
      sd.iterations_this_epoch = some ite →
      sd.random_state_this_epoch = none →
      Iterator.load_state_dict st sd =
        ({ st with iterations := its, iterations_this_epoch := ite }, false)) ∧
    (∀ its ite rst, sd.iterations = some its →
      sd.iterations_this_epoch = some ite →
      sd.random_state_this_epoch = some rst →
      Iterator.load_state_dict st sd =
        ({ st with iterations := its, iterations_this_epoch := ite,
                   random_state_this_epoch := rst,
                   restored_from_state := true }, true)) := by
  refine ⟨?_, ?_, ?_, ?_⟩
  · intro h
    simp [Iterator.load_state_dict, h]
  · intro its h1 h2
    simp [Iterator.load_state_dict, h1, h2]
  · intro its ite h1 h2 h3
    simp [Iterator.load_state_dict, h1, h2, h3]
  · intro its ite rst h1 h2 h3
    simp [Iterator.load_state_dict, h1, h2, h3]

/-- Witness for the amended C9: the no-keys record restores nothing and a
complete record restores everything. -/
theorem load_state_dict_prefix_restore_witness :
    (Iterator.load_state_dict (Iterator.initialState ())
        ({ iterations := none, iterations_this_epoch := none,
           random_state_this_epoch := none } : Iterator.StateDict Unit) =
      (Iterator.initialState (), false)) ∧
    (Iterator.load_state_dict (Iterator.initialState ())
        ({ iterations := some 3, iterations_this_epoch := some 2,
           random_state_this_epoch := some (some ()) } :
          Iterator.StateDict Unit) =
      ({ Iterator.initialState () with
           iterations := 3,
           iterations_this_epoch := 2,
           random_state_this_epoch := some (),
           restored_from_state := true }, true)) :=
  ⟨(load_state_dict_prefix_restore (Iterator.initialState ()) _).1 rfl,
   (load_state_dict_prefix_restore (Iterator.initialState ()) _).2.2.2 3 2
     (some ()) rfl rfl rfl⟩

end TorchText
